import Mathlib

/-!
Shallow embedding of the `scenarios/invest` benchmark pipeline:

* the agent's keyword-sentiment verdict inference
  (`scenarios/invest/agent/src/agent.py`),
* the evaluator's percentage-extraction ground-truth check and per-ticker
  scoring loop (`scenarios/invest/evaluator/src/agent.py`),
* the messenger's per-endpoint session map and failure policy
  (`scenarios/invest/evaluator/src/messenger.py`),
* the search wrapper's error shape (`scenarios/invest/utils/search.py`).

Text is modelled as `List Char` (Python `str`), Python floats as exact
rationals (`ℚ`); the string operations involved (`lower`, `count`, `in`,
regex digit matching) are modelled over ASCII, which covers every keyword
and pattern the code uses.
-/

set_option linter.unusedVariables false
set_option maxRecDepth 100000

/-- A search result as produced by `perplexity_search`
(`scenarios/invest/utils/search.py`, lines 53-63): a dict whose five fields
are all `Optional[str]`. -/
structure SearchResult where
  title : Option String
  url : Option String
  date : Option String
  lastUpdated : Option String
  snippet : Option String

/-- Python `f"{v}"` rendering of an `Optional[str]` value: `None` renders as
the literal text `None`. -/
def pyFStr : Option String → String
  | some s => s
  | none => "None"

/-- Python `v or ""` on an `Optional[str]` value. -/
def orEmpty : Option String → String
  | some s => s
  | none => ""

/-- Auxiliary counter with an explicit iteration bound: each recursive step
consumes at least one character of `hay` when `needle` is nonempty, so
`hay.length` steps always suffice (the bound keeps the recursion structural,
so the kernel can evaluate it). -/
def countOccsAux (needle : List Char) : Nat → List Char → Nat
  | 0, _ => 0
  | _, [] => 0
  | fuel + 1, c :: rest =>
    if needle.isPrefixOf (c :: rest) then
      countOccsAux needle fuel ((c :: rest).drop needle.length) + 1
    else
      countOccsAux needle fuel rest

/-- Python `hay.count(needle)`: the number of non-overlapping occurrences of
`needle` in `hay`, scanning left to right (`len(hay) + 1` for an empty
needle, as in Python). -/
def countOccs (needle hay : List Char) : Nat :=
  if needle.isEmpty then hay.length + 1 else countOccsAux needle hay.length hay

/-- Python `s.lower()` (ASCII case mapping; every keyword the code counts is
ASCII). -/
def lowerStr (s : List Char) : List Char := s.map Char.toLower

/-- `POSITIVE_KEYWORDS` from `scenarios/invest/agent/src/agent.py`
(lines 76-91); the set is modelled as a list, which is harmless because the
counts are summed. -/
def POSITIVE_KEYWORDS : List String :=
  ["beat", "record", "profit", "profitability", "growth", "upgrade", "raise",
   "surge", "soar", "rally", "strong", "bullish", "momentum", "guidance"]

/-- `NEGATIVE_KEYWORDS` from `scenarios/invest/agent/src/agent.py`
(lines 93-106). -/
def NEGATIVE_KEYWORDS : List String :=
  ["loss", "decline", "downgrade", "cut", "plunge", "slump", "warning",
   "bearish", "drop", "falls", "weak", "miss"]

/-- `_score_sentiment` (agent, lines 109-116): lowercase the text, add the
count of every positive keyword, then subtract the count of every negative
keyword. -/
def scoreSentiment (text : List Char) : Int :=
  let textLower := lowerStr text
  let pos := POSITIVE_KEYWORDS.foldl
    (fun acc w => acc + (countOccs w.data textLower : Int)) 0
  NEGATIVE_KEYWORDS.foldl (fun acc w => acc - (countOccs w.data textLower : Int)) pos

/-- Claim-side formulation of the sentiment score: the sum of the
case-insensitive substring occurrence counts of the positive keywords minus
the same sum for the negative keywords. -/
def keywordScoreSpec (text : List Char) : Int :=
  ((POSITIVE_KEYWORDS.map fun w => (countOccs w.data (lowerStr text) : Int)).sum) -
    ((NEGATIVE_KEYWORDS.map fun w => (countOccs w.data (lowerStr text) : Int)).sum)

/-- Python `"\n".join`. -/
def joinNL : List (List Char) → List Char
  | [] => []
  | [s] => s
  | s :: rest => s ++ '\n' :: joinNL rest

/-- The text blob `_infer_verdict` scores (agent, lines 154-162): one
`f"{title}\n{snippet}"` entry per result, empty entries filtered out by
`filter(None, ...)` (none can be empty, each contains a newline), joined with
newlines. -/
def textBlob (results : List SearchResult) : List Char :=
  joinNL ((results.map fun r =>
    (pyFStr r.title ++ "\n" ++ pyFStr r.snippet).data).filter fun s => !s.isEmpty)

/-- `_infer_verdict` (agent, lines 143-169): keyword-balance verdict with an
exact-rational confidence. The `target_increase_pct` argument is accepted and
ignored, as in the source. -/
def inferVerdict (results : List SearchResult) (targetIncreasePct : ℚ) :
    String × ℚ × String :=
  if results.isEmpty then
    ("unknown", 1/5, "No search results available in the research window.")
  else
    let score := scoreSentiment (textBlob results)
    if 0 < score then
      ("increase", min (9/10) (11/20 + (score : ℚ) / 10),
        "Positive sentiment dominates fundamentals.")
    else if score < 0 then
      ("no_increase", min (9/10) (11/20 + ((|score| : ℤ) : ℚ) / 10),
        "Negative or cautious sentiment dominates.")
    else
      ("unknown", 7/20, "Mixed or neutral fundamentals; unable to project 30%+ gain.")

/-- The evidence shape embedded into a decision (agent, lines 51-55). -/
structure Evidence where
  title : Option String
  url : Option String
  date : Option String
  snippet : Option String

/-- `_summarize_evidence` (agent, lines 172-182) at its default limit of 3. -/
def summarizeEvidence (results : List SearchResult) : List Evidence :=
  (results.take 3).map fun r => ⟨r.title, r.url, r.date, r.snippet⟩

/-- Python `round(x, 3)`. Every confidence the agent produces is an integer
multiple of 1/1000, so no tie ever arises and the tie-breaking rule (banker's
rounding in Python, half-up here) is irrelevant on reachable inputs. -/
def round3 (q : ℚ) : ℚ := (round (q * 1000) : ℤ) / 1000

/-- A per-ticker decision (agent, lines 58-63); `confidence` exact. -/
structure TickerDecision where
  ticker : String
  verdict : String
  confidence : ℚ
  rationale : String
  evidence : List Evidence

/-- One iteration of the agent's per-ticker loop (agent, lines 222-257), with
the provider results for the ticker supplied as an argument (the search call
is external). -/
def agentDecision (results : List SearchResult) (targetIncreasePct : ℚ)
    (ticker : String) : TickerDecision :=
  let v := inferVerdict results targetIncreasePct
  { ticker := ticker
    verdict := v.1
    confidence := round3 v.2.1
    rationale := v.2.2
    evidence := summarizeEvidence results }

/-- Python `needle in hay` (contiguous substring test). -/
def containsSub (needle : List Char) : List Char → Bool
  | [] => needle.isEmpty
  | c :: rest => needle.isPrefixOf (c :: rest) || containsSub needle rest

/-- Maximal run of ASCII digits at the front of a string: `(digits, rest)`. -/
def digitRun : List Char → List Char × List Char
  | [] => ([], [])
  | c :: cs =>
    if c.isDigit then
      let p := digitRun cs
      (c :: p.1, p.2)
    else ([], c :: cs)

/-- Numeric value of a digit string. -/
def digitsVal (ds : List Char) : Nat :=
  ds.foldl (fun acc c => acc * 10 + (c.toNat - '0'.toNat)) 0

/-- One attempted match of the pattern `(\d+(?:\.\d+)?)%` at the head of `s`
(evaluator, line 65): the digit runs are maximal (the regex never has to
backtrack into them, since the character after a maximal digit run cannot be
a digit). Returns the numeric value of the captured group and the number of
characters the whole match consumed. -/
def tryMatchPct (s : List Char) : Option (ℚ × Nat) :=
  match digitRun s with
  | ([], _) => none
  | (d1, rest1) =>
    match rest1 with
    | '%' :: _ => some ((digitsVal d1 : ℚ), d1.length + 1)
    | '.' :: rest2 =>
      (match digitRun rest2 with
      | ([], _) => none
      | (d2, '%' :: _) =>
        some ((digitsVal d1 : ℚ) + (digitsVal d2 : ℚ) / (10 : ℚ) ^ d2.length,
          d1.length + 1 + d2.length + 1)
      | _ => none)
    | _ => none

/-- `re.finditer` scan with an explicit iteration bound: each step consumes at
least one character (a successful match consumes at least two), so
`s.length` steps always suffice. On a match the scan resumes after it
(non-overlapping matches), otherwise it advances one character. -/
def scanPercentsAux : Nat → List Char → List ℚ
  | 0, _ => []
  | _, [] => []
  | fuel + 1, c :: cs =>
    match tryMatchPct (c :: cs) with
    | some (v, n) => v :: scanPercentsAux fuel ((c :: cs).drop n)
    | none => scanPercentsAux fuel cs

/-- All percentages matched by `re.finditer(r"(\d+(?:\.\d+)?)%", text)`, in
order. -/
def scanPercents (s : List Char) : List ℚ := scanPercentsAux s.length s

/-- `_extract_max_percentage` (evaluator, lines 63-73): the running maximum of
all matched percentages starting from 0.0, then `thirty percent` in the
lowercased text forces the maximum up to 30. (The `except ValueError` branch
is dead: the captured group always parses.) -/
def extractMaxPercentage (text : List Char) : ℚ :=
  let m := (scanPercents text).foldl max 0
  if containsSub "thirty percent".data (lowerStr text) then max m 30 else m

/-- The corpus `_infer_truth` scans (evaluator, lines 80-98): the non-empty
titles, then the non-empty snippets, joined with newlines;
`r.get(..., "") or ""` maps a missing or `None` field to `""`. -/
def truthCorpus (results : List SearchResult) : List Char :=
  joinNL ((((results.map fun r => orEmpty r.title).filter fun s => !s.isEmpty) ++
    ((results.map fun r => orEmpty r.snippet).filter fun s => !s.isEmpty)).map
      String.data)

/-- `_infer_truth` (evaluator, lines 76-103), truth component. The second
component of the source's return value is a human-readable rationale string
that no claim depends on; it is not modelled. -/
def inferTruth (results : List SearchResult) (thresholdPct : ℚ) : Bool :=
  if results.isEmpty then false
  else decide (thresholdPct * 100 ≤ extractMaxPercentage (truthCorpus results))

/-- The pass computation from the evaluator's `Agent.run` (lines 192-194). -/
def passScore (verdict : String) (truth : Bool) : Bool :=
  (verdict == "increase" && truth) ||
    ((verdict == "no_increase" || verdict == "unknown") && !truth)

/-- JSON-like values as the evaluator handles them (Python
`None`/`bool`/number/`str`/`list`/`dict`). -/
inductive JVal where
  | null
  | bool (b : Bool)
  | num (q : ℚ)
  | str (s : String)
  | arr (elems : List JVal)
  | obj (fields : List (String × JVal))

/-- Python truthiness of a JSON value. -/
def pyTruthy : JVal → Bool
  | .null => false
  | .bool b => b
  | .num q => !(decide (q = 0))
  | .str s => !s.isEmpty
  | .arr xs => !xs.isEmpty
  | .obj kvs => !kvs.isEmpty

/-- Python `d.get(k)` on a dict: `None` when the key is absent. -/
def pyGet (fields : List (String × JVal)) (k : String) : JVal :=
  match fields.find? (fun p => p.1 == k) with
  | some p => p.2
  | none => .null

/-- The loop test of `_pick_data_part` (evaluator, lines 107-109):
`isinstance(item, dict) and item.get("decisions")`. -/
def hasDecisions (item : JVal) : Bool :=
  match item with
  | .obj fields => pyTruthy (pyGet fields "decisions")
  | _ => false

/-- `_pick_data_part` (evaluator, lines 106-110): the first fragment with a
truthy `decisions` field, else the first fragment, else `{}`. -/
def pickDataPart (dataParts : List JVal) : JVal :=
  match dataParts.find? hasDecisions with
  | some item => item
  | none => dataParts.headD (.obj [])

/-- The decision-payload selection in the evaluator's `Agent.run`
(lines 169-174): `textJson` is the outcome of `json.loads(response_text)`
(`none` when parsing raised, in which case the payload defaults to `{}`).
The text fallback fires only when the payload picked from the data parts is
Python-falsy. -/
def decisionsPayload (dataParts : List JVal) (textJson : Option JVal) : JVal :=
  let p := pickDataPart dataParts
  if pyTruthy p then p else textJson.getD (.obj [])

/-- `decisions = decisions_payload.get("decisions") or []` (evaluator,
line 176). A payload that is not a dict makes `.get` raise `AttributeError`;
a truthy non-list `decisions` value makes the subsequent `for` loop raise on
its first element. Both unhandled exceptions are modelled as `Except.error`. -/
def extractDecisions (dataParts : List JVal) (textJson : Option JVal) :
    Except Unit (List JVal) :=
  match decisionsPayload dataParts textJson with
  | .obj fields =>
    match pyGet fields "decisions" with
    | .arr ds => .ok ds
    | v => if pyTruthy v then .error () else .ok []
  | _ => .error ()

/-- One row of `ticker_results` (evaluator, lines 196-203); the `rationale`
string is not modelled (no claim depends on it). -/
structure TickerResult where
  agent_verdict : JVal
  truth_increase : Bool
  agent_confidence : JVal
  evidence_checked : Nat
  pass : Bool

/-- Equality of hashable atomic JSON values, as Python dict-key equality.
(Python additionally identifies `True` with `1` and `1` with `1.0` across
types; JSON decisions never mix key types, so cross-type equations are not
modelled.) -/
def jAtomBeq : JVal → JVal → Bool
  | .null, .null => true
  | .bool a, .bool b => a == b
  | .num a, .num b => decide (a = b)
  | .str a, .str b => a == b
  | _, _ => false

/-- Whether a JSON value is hashable in Python (usable as a dict key). -/
def isHashable : JVal → Bool
  | .arr _ => false
  | .obj _ => false
  | _ => true

/-- Python dict assignment on an insertion-ordered association list: an
existing key keeps its position (and its original key object), a new key is
appended. -/
def dictSet (m : List (JVal × TickerResult)) (k : JVal) (v : TickerResult) :
    List (JVal × TickerResult) :=
  if m.any (fun p => jAtomBeq p.1 k) then
    m.map fun p => if jAtomBeq p.1 k then (p.1, v) else p
  else m ++ [(k, v)]

/-- Python `m[k]` lookup (as an `Option`). -/
def lookupKey (m : List (JVal × TickerResult)) (k : JVal) : Option TickerResult :=
  match m.find? (fun p => jAtomBeq p.1 k) with
  | some p => some p.2
  | none => none

/-- The pass computation applied to the raw JSON `verdict` value: Python `==`
between a string and a non-string is `False`, so a missing or non-string
verdict fails both tests. -/
def passScoreJ (verdict : JVal) (truth : Bool) : Bool :=
  match verdict with
  | .str s => passScore s truth
  | _ => false

/-- The `ticker_results[ticker]` row built for one decision (evaluator,
lines 185-203), with the verification search abstracted as `searchFor` (for a
fixed config the query, and hence the result list, is a deterministic
function of the ticker value). -/
def entryOf (searchFor : JVal → List SearchResult) (thresholdPct : ℚ)
    (fields : List (String × JVal)) : TickerResult :=
  let results := searchFor (pyGet fields "ticker")
  let truth := inferTruth results thresholdPct
  { agent_verdict := pyGet fields "verdict"
    truth_increase := truth
    agent_confidence := pyGet fields "confidence"
    evidence_checked := results.length
    pass := passScoreJ (pyGet fields "verdict") truth }

/-- One iteration of the evaluator's scoring loop (evaluator, lines 179-203).
The accumulator carries the `ticker_results` mapping and the list of tickers
a verification search was run for. A decision that is not a dict raises on
`.get` (`Except.error`); a falsy ticker is skipped before any search; an
unhashable ticker raises at the dict assignment (after its search). -/
def scoreStep (searchFor : JVal → List SearchResult) (thresholdPct : ℚ)
    (acc : List (JVal × TickerResult) × List JVal) (decision : JVal) :
    Except Unit (List (JVal × TickerResult) × List JVal) :=
  match decision with
  | .obj fields =>
    let ticker := pyGet fields "ticker"
    if !(pyTruthy ticker) then .ok acc
    else if isHashable ticker then
      .ok (dictSet acc.1 ticker (entryOf searchFor thresholdPct fields),
        acc.2 ++ [ticker])
    else .error ()
  | _ => .error ()

/-- The evaluator's scoring loop as a left fold that stops at the first
unhandled exception. -/
def scoreFold (searchFor : JVal → List SearchResult) (thresholdPct : ℚ) :
    List (JVal × TickerResult) × List JVal → List JVal →
      Except Unit (List (JVal × TickerResult) × List JVal)
  | acc, [] => .ok acc
  | acc, d :: ds =>
    match scoreStep searchFor thresholdPct acc d with
    | .ok acc2 => scoreFold searchFor thresholdPct acc2 ds
    | .error e => .error e

/-- The whole scoring loop started from an empty `ticker_results` mapping. -/
def scoreDecisions (searchFor : JVal → List SearchResult) (thresholdPct : ℚ)
    (decisions : List JVal) :
    Except Unit (List (JVal × TickerResult) × List JVal) :=
  scoreFold searchFor thresholdPct ([], []) decisions

/-- `passed = sum(1 for r in ticker_results.values() if r.get("pass"))`
(evaluator, line 206). -/
def passedCount (m : List (JVal × TickerResult)) : Nat :=
  (m.filter fun p => p.2.pass).length

/-- `pass_rate = (passed / total * 100) if total else 0.0` (evaluator,
line 207), as an exact rational. -/
def passRate (m : List (JVal × TickerResult)) : ℚ :=
  if m.length ≠ 0 then (passedCount m : ℚ) / (m.length : ℚ) * 100 else 0

/-- End-to-end pipeline of the evaluator's `Agent.run` after the remote call:
decision extraction, the scoring loop, and aggregation. -/
def evaluatorScore (searchFor : JVal → List SearchResult) (thresholdPct : ℚ)
    (dataParts : List JVal) (textJson : Option JVal) :
    Except Unit (List (JVal × TickerResult) × ℚ) :=
  match extractDecisions dataParts textJson with
  | .error e => .error e
  | .ok ds =>
    match scoreDecisions searchFor thresholdPct ds with
    | .error e => .error e
    | .ok acc => .ok (acc.1, passRate acc.1)

/-- The truthy tickers of a decision list, in decision order (only dict
decisions contribute; this is the sequence of keys the scoring loop assigns). -/
def truthyTickers (decisions : List JVal) : List JVal :=
  decisions.filterMap fun d =>
    match d with
    | .obj fields =>
      if pyTruthy (pyGet fields "ticker") then some (pyGet fields "ticker") else none
    | _ => none

/-- First-occurrence deduplication with an explicit `seen` accumulator, using
the same key test as `dictSet`. -/
def dedupKeysAux (seen : List JVal) : List JVal → List JVal
  | [] => []
  | k :: ks =>
    if seen.any (fun s => jAtomBeq s k) then dedupKeysAux seen ks
    else k :: dedupKeysAux (k :: seen) ks

/-- The distinct elements of a list, keeping first occurrences. -/
def dedupKeys (ks : List JVal) : List JVal := dedupKeysAux [] ks

/-- A part of a remote reply message: text or structured data
(`a2a` `TextPart` / `DataPart`, as unwrapped by `_collect_parts`,
messenger lines 33-47). -/
inductive MsgPart where
  | text (s : String)
  | data (d : JVal)

/-- The text fragments of a part list, in order. -/
def collectTexts (parts : List MsgPart) : List String :=
  parts.filterMap fun p => match p with | .text s => some s | _ => none

/-- The structured-data fragments of a part list, in order. -/
def collectDatas (parts : List MsgPart) : List JVal :=
  parts.filterMap fun p => match p with | .data d => some d | _ => none

/-- The terminal event `send_message` interprets (messenger, lines 78-96):
a plain message, a task/update pair (context id, terminal status state,
optional status message parts, artifact part lists), or no event at all
(the wildcard `case _` arm). -/
inductive ReplyEvent where
  | message (contextId : Option String) (parts : List MsgPart)
  | taskUpdate (contextId : Option String) (statusState : String)
      (statusMessage : Option (List MsgPart)) (artifacts : List (List MsgPart))
  | noEvent

/-- The `outputs` dict `send_message` returns (messenger, lines 69-98). -/
structure SendOutputs where
  response_text : String
  context_id : Option String
  data_parts : List JVal
  status : Option String

/-- The unwrapping in `send_message` (messenger, lines 78-96): a message
contributes its text and data parts; a task/update pair contributes its
status message's text, the artifacts' data followed by the status message's
data, and sets `status`; no event leaves the initial outputs. -/
def sendMessage : ReplyEvent → SendOutputs
  | .message ctx parts =>
    { response_text := String.intercalate "\n" (collectTexts parts)
      context_id := ctx
      data_parts := collectDatas parts
      status := none }
  | .taskUpdate ctx st statusMsg artifacts =>
    let statusParts := statusMsg.getD []
    { response_text := String.intercalate "\n" (collectTexts statusParts)
      context_id := ctx
      data_parts := (artifacts.map collectDatas).flatten ++ collectDatas statusParts
      status := some st }
  | .noEvent =>
    { response_text := "", context_id := none, data_parts := [], status := none }

/-- `Messenger`'s only state: the per-endpoint session map `_context_ids`
(messenger, line 103), an insertion-ordered dict from endpoint url to the
(possibly `None`) stored context id. -/
structure Messenger where
  contextIds : List (String × Option String)

/-- Python `self._context_ids.get(url)`: `None` both when the key is absent
and when the stored value is `None`. -/
def mapGet (m : List (String × Option String)) (url : String) : Option String :=
  match m.find? (fun p => p.1 == url) with
  | some p => p.2
  | none => none

/-- Python dict assignment for the session map. -/
def mapPut (m : List (String × Option String)) (url : String) (v : Option String) :
    List (String × Option String) :=
  if m.any (fun p => p.1 == url) then
    m.map fun p => if p.1 == url then (p.1, v) else p
  else m ++ [(url, v)]

/-- The `context_id` argument `talk_to_agent` passes to `send_message`
(messenger, line 115). -/
def sentContextId (st : Messenger) (url : String) (newConversation : Bool) :
    Option String :=
  if newConversation then none else mapGet st.contextIds url

/-- `Messenger.talk_to_agent` (messenger, lines 105-121) with the remote's
terminal reply supplied as an argument. Returns the messenger state after the
call together with the outputs or the raised error (which carries the
outputs dict). The raise precedes the map assignment in the source, so the
state comes back unchanged on error. -/
def talkToAgent (st : Messenger) (url : String) (newConversation : Bool)
    (reply : ReplyEvent) : Messenger × Except SendOutputs SendOutputs :=
  let outputs := sendMessage reply
  if (outputs.status.getD "completed") == "completed" then
    (⟨mapPut st.contextIds url outputs.context_id⟩, .ok outputs)
  else (st, .error outputs)

/-- `Messenger.reset` (messenger, lines 123-124). -/
def resetMessenger (_st : Messenger) : Messenger := ⟨[]⟩

/-- One observable messenger operation: a call (with the remote's terminal
reply) or a reset. -/
inductive MOp where
  | talk (url : String) (newConversation : Bool) (reply : ReplyEvent)
  | reset

/-- State transition of one messenger operation. -/
def mStep (st : Messenger) : MOp → Messenger
  | .talk url nc reply => (talkToAgent st url nc reply).1
  | .reset => resetMessenger st

/-- The messenger state after a sequence of operations on a fresh instance. -/
def mRun (ops : List MOp) : Messenger := ops.foldl mStep ⟨[]⟩

/-- The context id carried by a terminal reply. -/
def replyContextId : ReplyEvent → Option String
  | .message ctx _ => ctx
  | .taskUpdate ctx _ _ _ => ctx
  | .noEvent => none

/-- Whether `talk_to_agent` treats a reply as successful: only a task/update
pair carries a status, and only a status other than `completed` fails. -/
def replySuccess : ReplyEvent → Bool
  | .taskUpdate _ st _ _ => st == "completed"
  | _ => true

/-- Claim-side session bookkeeping: the context id of the last successful call
to `url` since the last reset (`none` when there is none). -/
def lastSessionId (ops : List MOp) (url : String) : Option String :=
  ops.foldl (fun acc op =>
    match op with
    | .reset => none
    | .talk u _ reply =>
      if u == url && replySuccess reply then replyContextId reply else acc)
    none

/-- A raw provider result (`client.search.create(...).results` element):
the five attributes `perplexity_search` reads off it. -/
structure RawResult where
  title : Option String
  url : Option String
  date : Option String
  lastUpdated : Option String
  snippet : Option String

/-- The outcome of the provider call `client.search.create(**kwargs)`:
either a result list or a raised exception (any exception, with its text). -/
inductive ProviderOutcome where
  | ok (results : List RawResult)
  | raise (msg : String)

/-- The dict `perplexity_search` returns: `error` is present exactly on the
caught-exception path. -/
structure SearchOutput where
  query : String
  results : List SearchResult
  error : Option String

/-- Python truthiness of an `Optional[str]` (`None` and `""` are falsy). -/
def strTruthy : Option String → Bool
  | none => false
  | some s => !s.isEmpty

/-- `key = api_key or os.getenv("PERPLEXITY_API_KEY")` (search, line 30). -/
def resolvedKey (apiKey envKey : Option String) : Option String :=
  if strTruthy apiKey then apiKey else envKey

/-- `perplexity_search` (search, lines 7-64): `provider` is the outcome the
provider call would have, consulted only after the credential check passes;
`Except.error` is the eagerly raised `ValueError`. A provider exception is
converted into an empty result set plus an error string. -/
def perplexitySearch (query : String) (apiKey envKey : Option String)
    (provider : ProviderOutcome) : Except String SearchOutput :=
  if !(strTruthy (resolvedKey apiKey envKey)) then
    .error "PERPLEXITY_API_KEY is not set"
  else
    match provider with
    | .raise msg => .ok { query := query, results := [], error := some msg }
    | .ok rs =>
      .ok { query := query
            results := rs.map fun r => ⟨r.title, r.url, r.date, r.lastUpdated, r.snippet⟩
            error := none }

/-- Concrete evidence for the C2 examples: text mentioning a 33% move (the
fixture used by `tests/test_evaluator.py`). -/
def ex33 : List SearchResult :=
  [⟨some "RR share price jumped 33% in Dec 2025", none, none, none,
    some "RR gained roughly 33% between Dec 1 and Dec 20, 2025 on bullish guidance."⟩]

/-- Concrete evidence whose only percentage is 12%. -/
def ex12 : List SearchResult :=
  [⟨some "RR moved 12% in December 2025", none, none, none, none⟩]

/-- Concrete evidence with the phrase `thirty percent` and no percent sign. -/
def exThirty : List SearchResult :=
  [⟨some "RR rose thirty percent in December 2025", none, none, none, none⟩]

/-- Concrete evidence whose text contains `record profit` and no negative
keywords (the C7 scenario). -/
def c7Results : List SearchResult :=
  [⟨some "record profit", none, none, none, some ""⟩]

/-- Concrete data parts for the C4 counterexample: one non-empty fragment
without a `decisions` field. -/
def c4DataParts : List JVal := [.obj [("foo", .num 1)]]

/-- Concrete reply text (already JSON-parsed) for the C4 counterexample:
valid JSON carrying a non-empty decision list. -/
def c4TextJson : Option JVal :=
  some (.obj [("decisions", .arr [.obj [("ticker", .str "RR"), ("verdict", .str "increase")]])])


/-! ## Helper lemmas -/

theorem foldl_add_int (f : String → Int) (l : List String) (init : Int) :
    l.foldl (fun acc w => acc + f w) init = init + (l.map f).sum := by
  induction l generalizing init with
  | nil => simp
  | cons w ws ih => simp [ih, add_assoc]

theorem foldl_sub_int (f : String → Int) (l : List String) (init : Int) :
    l.foldl (fun acc w => acc - f w) init = init - (l.map f).sum := by
  induction l generalizing init with
  | nil => simp
  | cons w ws ih => simp [ih, sub_sub]

theorem scoreSentiment_eq_spec (text : List Char) :
    scoreSentiment text = keywordScoreSpec text := by
  simp [scoreSentiment, keywordScoreSpec, foldl_add_int, foldl_sub_int]

/-! ## C1: agent-side verdict inference -/

/-- C1: for every evidence list and threshold, `_infer_verdict` scores the
concatenated title+snippet text by summing the case-insensitive occurrence
counts of the positive keywords minus the negative keywords, and maps
`score > 0` to `("increase", min 0.9 (0.55 + 0.1 * score))`, `score < 0` to
`("no_increase", min 0.9 (0.55 + 0.1 * |score|))`, `score = 0` to
`("unknown", 0.35)`; an empty evidence list yields `("unknown", 0.20)`
regardless of the threshold. -/
theorem c1_agent_verdict_inference (results : List SearchResult) (t : ℚ) :
    (results = [] →
      inferVerdict results t =
        ("unknown", 1/5, "No search results available in the research window.")) ∧
    (results ≠ [] →
      ((inferVerdict results t).1, (inferVerdict results t).2.1) =
        (if 0 < keywordScoreSpec (textBlob results) then
          ("increase",
            min (9/10 : ℚ) (11/20 + (keywordScoreSpec (textBlob results) : ℚ) / 10))
        else if keywordScoreSpec (textBlob results) < 0 then
          ("no_increase",
            min (9/10 : ℚ)
              (11/20 + ((|keywordScoreSpec (textBlob results)| : ℤ) : ℚ) / 10))
        else ("unknown", 7/20))) := by
  constructor
  · intro h
    subst h
    rfl
  · intro h
    obtain ⟨r, rs, rfl⟩ : ∃ r rs, results = r :: rs := by
      cases results with
      | nil => exact absurd rfl h
      | cons r rs => exact ⟨r, rs, rfl⟩
    show ((inferVerdict (r :: rs) t).1, (inferVerdict (r :: rs) t).2.1) = _
    rw [inferVerdict]
    simp only [List.isEmpty_cons, if_false, Bool.false_eq_true]
    rw [scoreSentiment_eq_spec]
    by_cases h1 : 0 < keywordScoreSpec (textBlob (r :: rs))
    · simp [h1]
    · by_cases h2 : keywordScoreSpec (textBlob (r :: rs)) < 0
      · simp [h1, h2]
      · simp [h1, h2]

/-- C1 witness: a single evidence item whose text is `beat` has score 1 and
yields the increase verdict with confidence `min 0.9 (0.55 + 0.1)`. -/
theorem c1_agent_verdict_inference_witness :
    ((inferVerdict [⟨some "beat", none, none, none, some ""⟩] (3/10)).1,
      (inferVerdict [⟨some "beat", none, none, none, some ""⟩] (3/10)).2.1) =
      ("increase",
        min (9/10 : ℚ)
          (11/20 +
            (keywordScoreSpec (textBlob [⟨some "beat", none, none, none, some ""⟩]) : ℚ)
              / 10)) := by
  have h := (c1_agent_verdict_inference [⟨some "beat", none, none, none, some ""⟩]
    (3/10)).2 (by simp)
  rw [h, if_pos (by decide :
    (0:ℤ) < keywordScoreSpec (textBlob [⟨some "beat", none, none, none, some ""⟩]))]

/-! ## C3: per-ticker pass scoring -/

/-- C3: the per-ticker pass flag is a total function of the verdict string and
the boolean ground truth: the three rows `(increase, true)`,
`(no_increase, false)` and `(unknown, false)` pass, their complements fail,
and in general `pass` holds exactly when the verdict is `increase` and the
truth is positive, or the verdict is `no_increase`/`unknown` and the truth is
negative. -/
theorem c3_pass_scoring (verdict : String) (truth : Bool) :
    passScore "increase" true = true ∧
    passScore "no_increase" false = true ∧
    passScore "unknown" false = true ∧
    passScore "increase" false = false ∧
    passScore "no_increase" true = false ∧
    passScore "unknown" true = false ∧
    (passScore verdict truth = true ↔
      (verdict = "increase" ∧ truth = true) ∨
        ((verdict = "no_increase" ∨ verdict = "unknown") ∧ truth = false)) := by
  refine ⟨rfl, rfl, rfl, rfl, rfl, rfl, ?_⟩
  cases truth <;>
    simp [passScore, Bool.or_eq_true, Bool.and_eq_true, beq_iff_eq,
      or_comm, and_comm]

/-! ## C7: the `record profit` scenario -/

/-- C7 counterexample: a single evidence item whose text is exactly
`record profit` (one occurrence of each of the positive keywords `record` and
`profit`, no negative keyword occurrences) produces the increase verdict with
confidence 0.75 and one embedded evidence item — not confidence 0.65 as the
claim states. -/
theorem c7_counterexample :
    containsSub "record profit".data (textBlob c7Results) = true ∧
    (NEGATIVE_KEYWORDS.all fun w =>
      countOccs w.data (lowerStr (textBlob c7Results)) == 0) = true ∧
    (agentDecision c7Results (3/10) "RR").ticker = "RR" ∧
    (agentDecision c7Results (3/10) "RR").verdict = "increase" ∧
    (agentDecision c7Results (3/10) "RR").confidence ≠ 13/20 ∧
    (agentDecision c7Results (3/10) "RR").confidence = 3/4 ∧
    (agentDecision c7Results (3/10) "RR").evidence.length = 1 := by
  have hs : scoreSentiment (textBlob c7Results) = 2 := by decide
  have hconf : (agentDecision c7Results (3/10) "RR").confidence =
      round3 (min (9/10 : ℚ) (11/20 + ((2:ℤ) : ℚ) / 10)) := by
    show round3 (inferVerdict c7Results (3/10)).2.1 = _
    rw [inferVerdict]
    rw [show c7Results.isEmpty = false from rfl]
    simp only [Bool.false_eq_true, if_false]
    rw [hs]
    norm_num
  have hval : round3 (min (9/10 : ℚ) (11/20 + ((2:ℤ) : ℚ) / 10)) = 3/4 := by
    have : (min (9/10 : ℚ) (11/20 + ((2:ℤ) : ℚ) / 10)) = 3/4 := by
      rw [min_eq_right] <;> norm_num
    rw [this]
    rw [round3, show (3/4 : ℚ) * 1000 = ((750 : ℤ) : ℚ) from by norm_num]
    rw [round_intCast]
    norm_num
  refine ⟨by decide, by decide, rfl, ?_, ?_, ?_, by decide⟩
  · show (inferVerdict c7Results (3/10)).1 = "increase"
    rw [inferVerdict]
    rw [show c7Results.isEmpty = false from rfl]
    simp only [Bool.false_eq_true, if_false]
    rw [hs]
    norm_num
  · rw [hconf, hval]
    norm_num
  · rw [hconf, hval]

/-- C7 (amended): for a workload over the single ticker `RR` whose search
returns exactly one evidence item whose text contains one occurrence each of
the positive keywords `record` and `profit` (as the phrase `record profit`
does) and no other keyword occurrences — so the sentiment score is 2 — the
agent produces the decision `{ticker RR, verdict increase, confidence 0.75,
evidence: 1 item}`. -/
theorem c7_record_profit_scenario (results : List SearchResult) (t : ℚ)
    (hlen : results.length = 1)
    (hscore : keywordScoreSpec (textBlob results) = 2) :
    (agentDecision results t "RR").ticker = "RR" ∧
    (agentDecision results t "RR").verdict = "increase" ∧
    (agentDecision results t "RR").confidence = 3/4 ∧
    (agentDecision results t "RR").evidence.length = 1 := by
  obtain ⟨r, rs, rfl⟩ : ∃ r rs, results = r :: rs := by
    cases results with
    | nil => simp at hlen
    | cons r rs => exact ⟨r, rs, rfl⟩
  have hrs : rs = [] := by
    simpa using hlen
  subst hrs
  have hv : inferVerdict [r] t =
      ("increase", min (9/10 : ℚ) (11/20 + ((2:ℤ) : ℚ) / 10),
        "Positive sentiment dominates fundamentals.") := by
    rw [inferVerdict]
    simp only [List.isEmpty_cons, if_false, Bool.false_eq_true]
    rw [scoreSentiment_eq_spec, hscore]
    norm_num
  have hmin : (min (9/10 : ℚ) (11/20 + ((2:ℤ) : ℚ) / 10)) = 3/4 := by
    rw [min_eq_right] <;> norm_num
  refine ⟨rfl, ?_, ?_, rfl⟩
  · show (inferVerdict [r] t).1 = "increase"
    rw [hv]
  · show round3 (inferVerdict [r] t).2.1 = 3/4
    rw [hv]
    show round3 _ = 3/4
    rw [hmin, round3, show (3/4 : ℚ) * 1000 = ((750 : ℤ) : ℚ) from by norm_num,
      round_intCast]
    norm_num

/-- C7 witness: the concrete `record profit` evidence item instantiates the
amended scenario. -/
theorem c7_record_profit_scenario_witness :
    (agentDecision c7Results (3/10) "RR").verdict = "increase" ∧
    (agentDecision c7Results (3/10) "RR").confidence = 3/4 ∧
    (agentDecision c7Results (3/10) "RR").evidence.length = 1 := by
  have h := c7_record_profit_scenario c7Results (3/10) (by decide) (by decide)
  exact ⟨h.2.1, h.2.2.1, h.2.2.2⟩

/-! ## C2: evaluator-side ground truth -/

/-- C2: for every evidence list and threshold fraction `t`, `_infer_truth`
returns true iff the list is non-empty and the maximum percentage extracted
from the concatenated titles-and-snippets corpus (numbers immediately
followed by `%`, with the case-insensitive phrase `thirty percent` counting
as 30) is at least `t * 100`; an empty list yields false unconditionally; at
threshold 0.30 a corpus with `33%` yields true, one with only `12%` yields
false, and one with `thirty percent` and no percent sign yields true. -/
theorem c2_ground_truth (results : List SearchResult) (t : ℚ) :
    (inferTruth results t = true ↔
      results ≠ [] ∧ t * 100 ≤ extractMaxPercentage (truthCorpus results)) ∧
    inferTruth [] t = false ∧
    inferTruth ex33 (3/10) = true ∧
    inferTruth ex12 (3/10) = false ∧
    inferTruth exThirty (3/10) = true := by
  refine ⟨?_, rfl, ?_, ?_, ?_⟩
  · cases results with
    | nil => simp [inferTruth]
    | cons r rs =>
      rw [inferTruth, show (r :: rs).isEmpty = false from rfl]
      simp only [Bool.false_eq_true, if_false, decide_eq_true_eq]
      simp
  · have h : inferTruth ex33 (3/10) =
        decide ((3:ℚ)/10 * 100 ≤ extractMaxPercentage (truthCorpus ex33)) := rfl
    rw [h, show extractMaxPercentage (truthCorpus ex33) = 33 from by decide]
    simp only [decide_eq_true_eq]
    norm_num
  · have h : inferTruth ex12 (3/10) =
        decide ((3:ℚ)/10 * 100 ≤ extractMaxPercentage (truthCorpus ex12)) := rfl
    rw [h, show extractMaxPercentage (truthCorpus ex12) = 12 from by decide]
    simp only [decide_eq_false_iff_not]
    norm_num
  · have h : inferTruth exThirty (3/10) =
        decide ((3:ℚ)/10 * 100 ≤ extractMaxPercentage (truthCorpus exThirty)) := rfl
    rw [h, show extractMaxPercentage (truthCorpus exThirty) = 30 from by decide]
    simp only [decide_eq_true_eq]
    norm_num

/-! ## C9: aggregate pass rate -/

/-- C9: the aggregate pass rate equals `passed / total * 100` over the scored
tickers whenever at least one ticker was scored, is exactly 0 for zero scored
tickers (the division branch is guarded, never reached), and the rate the
end-to-end pipeline emits is exactly this function of its `ticker_results`. -/
theorem c9_pass_rate (m : List (JVal × TickerResult))
    (searchFor : JVal → List SearchResult) (t : ℚ)
    (dataParts : List JVal) (textJson : Option JVal) :
    (m ≠ [] → passRate m = (passedCount m : ℚ) / (m.length : ℚ) * 100) ∧
    (m = [] → passRate m = 0) ∧
    passedCount m ≤ m.length ∧
    (∀ tr rate, evaluatorScore searchFor t dataParts textJson = .ok (tr, rate) →
      rate = passRate tr) := by
  refine ⟨?_, ?_, List.length_filter_le _ _, ?_⟩
  · intro h
    rw [passRate, if_pos]
    intro hl
    exact h (List.length_eq_zero.mp hl)
  · intro h
    subst h
    rfl
  · intro tr rate h
    unfold evaluatorScore at h
    split at h
    · exact absurd h (by simp)
    · split at h
      · exact absurd h (by simp)
      · simp only [Except.ok.injEq, Prod.mk.injEq] at h
        rw [← h.1, ← h.2]

/-- C9 witness: one passing ticker gives rate `1/1*100`; the empty mapping
gives rate 0. -/
theorem c9_pass_rate_witness :
    passRate [(JVal.str "RR", ⟨JVal.str "increase", true, JVal.null, 1, true⟩)] =
      ((passedCount [(JVal.str "RR", ⟨JVal.str "increase", true, JVal.null, 1, true⟩)] : ℚ) /
        ((([(JVal.str "RR", ⟨JVal.str "increase", true, JVal.null, 1, true⟩)] :
          List (JVal × TickerResult)).length : ℚ)) * 100) ∧
    passRate ([] : List (JVal × TickerResult)) = 0 := by
  exact ⟨(c9_pass_rate [(JVal.str "RR", ⟨JVal.str "increase", true, JVal.null, 1, true⟩)]
      (fun _ => []) 0 [] none).1 (by simp),
    (c9_pass_rate [] (fun _ => []) 0 [] none).2.1 rfl⟩

/-! ## C4: decision extraction and its fallbacks -/

theorem pyTruthy_of_hasDecisions (item : JVal) (h : hasDecisions item = true) :
    pyTruthy item = true := by
  cases item with
  | obj fields =>
    cases fields with
    | nil => simp [hasDecisions, pyGet, pyTruthy] at h
    | cons p ps => simp [pyTruthy]
  | null => simp [hasDecisions] at h
  | bool b => simp [hasDecisions] at h
  | num q => simp [hasDecisions] at h
  | str s => simp [hasDecisions] at h
  | arr xs => simp [hasDecisions] at h

/-- C4 counterexample: with a single non-empty data fragment that has no
`decisions` field (so no fragment qualifies) and a reply text that parses to
a JSON object carrying a non-empty decision list, the evaluator does NOT fall
back to the text: it keeps the first fragment and proceeds with an empty
decision list. -/
theorem c4_counterexample :
    (c4DataParts.all fun p => !hasDecisions p) = true ∧
    extractDecisions c4DataParts c4TextJson = .ok [] ∧
    extractDecisions c4DataParts c4TextJson ≠
      .ok [.obj [("ticker", .str "RR"), ("verdict", .str "increase")]] := by
  refine ⟨by decide, rfl, ?_⟩
  intro h
  rw [show extractDecisions c4DataParts c4TextJson = .ok [] from rfl] at h
  simp at h

/-- C4 (amended): the evaluator uses the first structured-data fragment with a
non-empty `decisions` field; if no fragment qualifies it takes the first
fragment (an empty payload when there are none); it falls back to parsing the
reply's text as JSON only when that chosen payload is empty; and when the
final payload yields no decisions it proceeds with an empty decision list and
still produces a scorecard with zero tickers rather than failing. -/
theorem c4_decision_extraction (dataParts : List JVal) (textJson : Option JVal)
    (searchFor : JVal → List SearchResult) (t : ℚ) :
    (∀ item, dataParts.find? hasDecisions = some item →
      decisionsPayload dataParts textJson = item) ∧
    (dataParts.find? hasDecisions = none →
      pyTruthy (dataParts.headD (.obj [])) = true →
      decisionsPayload dataParts textJson = dataParts.headD (.obj [])) ∧
    (pyTruthy (pickDataPart dataParts) = false →
      decisionsPayload dataParts textJson = textJson.getD (.obj [])) ∧
    (extractDecisions dataParts textJson = .ok [] →
      evaluatorScore searchFor t dataParts textJson = .ok ([], 0)) := by
  refine ⟨?_, ?_, ?_, ?_⟩
  · intro item h
    have ht := pyTruthy_of_hasDecisions item (List.find?_some h)
    rw [decisionsPayload, pickDataPart, h]
    simp [ht]
  · intro h1 h2
    simp only [List.headD_eq_head?_getD] at h2
    rw [decisionsPayload, pickDataPart, h1]
    simp [h2]
  · intro h
    rw [decisionsPayload]
    simp [h]
  · intro h
    unfold evaluatorScore
    rw [h]
    rfl

/-- C4 witness: with no data fragments and a reply text parsing to
`{"decisions": []}`, the payload comes from the text and the pipeline yields
the zero-ticker scorecard. -/
theorem c4_decision_extraction_witness :
    decisionsPayload [] (some (.obj [("decisions", .arr [])])) =
      .obj [("decisions", .arr [])] ∧
    evaluatorScore (fun _ => []) 0 [] (some (.obj [("decisions", .arr [])])) =
      .ok ([], 0) := by
  have h := c4_decision_extraction [] (some (.obj [("decisions", .arr [])]))
    (fun _ => []) 0
  exact ⟨h.2.2.1 rfl, h.2.2.2 rfl⟩

/-! ## C8: search wrapper error policy -/

/-- C8: `perplexity_search` never propagates a provider exception — it turns
any raised provider error into `{query, results: [], error: msg}`; with a
credential it always returns a result dict; without a credential it raises
the configuration `ValueError` whose outcome does not depend on the provider
at all (the provider call is never attempted). -/
theorem c8_search_error_policy (query : String) (apiKey envKey : Option String)
    (provider : ProviderOutcome) :
    (∀ msg, strTruthy (resolvedKey apiKey envKey) = true → provider = .raise msg →
      perplexitySearch query apiKey envKey provider =
        .ok { query := query, results := [], error := some msg }) ∧
    (strTruthy (resolvedKey apiKey envKey) = true →
      ∃ out, perplexitySearch query apiKey envKey provider = .ok out) ∧
    (strTruthy (resolvedKey apiKey envKey) = false →
      ∀ provider2,
        perplexitySearch query apiKey envKey provider =
          perplexitySearch query apiKey envKey provider2 ∧
        perplexitySearch query apiKey envKey provider =
          .error "PERPLEXITY_API_KEY is not set") := by
  refine ⟨?_, ?_, ?_⟩
  · intro msg hkey hp
    subst hp
    unfold perplexitySearch
    simp [hkey]
  · intro hkey
    unfold perplexitySearch
    simp only [hkey, Bool.not_true, Bool.false_eq_true, if_false]
    cases provider with
    | raise msg => exact ⟨_, rfl⟩
    | ok rs => exact ⟨_, rfl⟩
  · intro hkey provider2
    constructor
    · unfold perplexitySearch
      simp [hkey]
    · unfold perplexitySearch
      simp [hkey]

/-- C8 witness: with a provisioned key a raising provider yields the
empty-results error dict; with no key at all the configuration error is
raised whatever the provider would have done. -/
theorem c8_search_error_policy_witness :
    perplexitySearch "q" (some "k") none (.raise "boom") =
      .ok { query := "q", results := [], error := some "boom" } ∧
    perplexitySearch "q" none none (.ok []) =
      .error "PERPLEXITY_API_KEY is not set" := by
  exact ⟨(c8_search_error_policy "q" (some "k") none (.raise "boom")).1 "boom"
      (by decide) rfl,
    ((c8_search_error_policy "q" none none (.ok [])).2.2 (by decide) (.ok [])).2⟩

/-! ## Messenger helper lemmas -/

theorem sendMessage_status_check (reply : ReplyEvent) :
    ((sendMessage reply).status.getD "completed" == "completed") =
      replySuccess reply := by
  cases reply <;> rfl

theorem sendMessage_context_id (reply : ReplyEvent) :
    (sendMessage reply).context_id = replyContextId reply := by
  cases reply <;> rfl

theorem mapGet_mapPut_self (m : List (String × Option String)) (url : String)
    (v : Option String) : mapGet (mapPut m url v) url = v := by
  rw [mapPut]
  by_cases hany : m.any (fun p => p.1 == url)
  · rw [if_pos hany, mapGet, List.find?_map]
    have hpred : ((fun p : String × Option String => p.1 == url) ∘
        fun p => if p.1 == url then (p.1, v) else p) =
        fun p : String × Option String => p.1 == url := by
      funext p
      by_cases hp : (p.1 == url)
      · simp [eq_of_beq hp]
      · have hp2 : p.1 ≠ url := by simpa using hp
        simp [hp2]
    rw [hpred]
    cases hq : m.find? (fun p => p.1 == url) with
    | none =>
      rw [List.find?_eq_none] at hq
      rcases List.any_eq_true.mp hany with ⟨x, hx, hpx⟩
      exact absurd hpx (by simpa using hq x hx)
    | some q =>
      have hq2 := List.find?_some hq
      simp [eq_of_beq hq2]
  · rw [if_neg hany, mapGet, List.find?_append]
    have hnone : m.find? (fun p => p.1 == url) = none := by
      rw [List.find?_eq_none]
      intro x hx hpx
      exact hany (List.any_eq_true.mpr ⟨x, hx, hpx⟩)
    rw [hnone]
    simp

theorem mapGet_mapPut_ne (m : List (String × Option String)) (url url2 : String)
    (v : Option String) (h : (url == url2) = false) :
    mapGet (mapPut m url v) url2 = mapGet m url2 := by
  have hne : url ≠ url2 := by simpa using h
  rw [mapPut]
  by_cases hany : m.any (fun p => p.1 == url)
  · rw [if_pos hany, mapGet, List.find?_map]
    have hpred : ((fun p : String × Option String => p.1 == url2) ∘
        fun p => if p.1 == url then (p.1, v) else p) =
        fun p : String × Option String => p.1 == url2 := by
      funext p
      by_cases hp : (p.1 == url)
      · simp [eq_of_beq hp, hne]
      · have hp2 : p.1 ≠ url := by simpa using hp
        simp [hp2]
    rw [hpred, mapGet]
    cases hq : m.find? (fun p => p.1 == url2) with
    | none => rfl
    | some q =>
      have hq2 := List.find?_some hq
      have hqne : q.1 ≠ url := by
        rw [eq_of_beq hq2]
        exact fun hcontra => hne hcontra.symm
      simp [hqne]
  · rw [if_neg hany, mapGet, List.find?_append, mapGet]
    cases hq : m.find? (fun p => p.1 == url2) with
    | some q => rfl
    | none =>
      simp only [Option.none_orElse]
      have hfalse : ((url, v).1 == url2) = false := h
      simp [List.find?, hfalse]

theorem mapGet_foldl_mStep (ops : List MOp) :
    ∀ (st : Messenger) (url : String),
      mapGet (ops.foldl mStep st).contextIds url =
        ops.foldl (fun acc op =>
          match op with
          | .reset => none
          | .talk u _ reply =>
            if u == url && replySuccess reply then replyContextId reply else acc)
          (mapGet st.contextIds url) := by
  induction ops with
  | nil => intro st url; rfl
  | cons op ops ih =>
    intro st url
    rw [List.foldl_cons, List.foldl_cons, ih]
    congr 1
    cases op with
    | reset => rfl
    | talk u nc reply =>
      show mapGet ((talkToAgent st u nc reply).1).contextIds url = _
      by_cases hs : replySuccess reply
      · have hcheck : ((sendMessage reply).status.getD "completed" == "completed") =
            true := by rw [sendMessage_status_check]; exact hs
        unfold talkToAgent
        simp only [hcheck, if_true]
        rw [sendMessage_context_id]
        by_cases hu : (u == url)
        · have : u = url := eq_of_beq hu
          subst this
          rw [mapGet_mapPut_self]
          simp [hs]
        · have hu2 : (u == url) = false := by simpa using hu
          rw [mapGet_mapPut_ne _ _ _ _ hu2]
          simp [hu2]
      · have hcheck : ((sendMessage reply).status.getD "completed" == "completed") =
            false := by
          rw [sendMessage_status_check]
          simpa using hs
        unfold talkToAgent
        simp only [hcheck, Bool.false_eq_true, if_false]
        have hs2 : replySuccess reply = false := by simpa using hs
        simp [hs2]

/-! ## C5: the per-endpoint session map -/

/-- C5: a call with `start_new_conversation = true` sends no stored session id;
a call with `start_new_conversation = false` sends exactly the id stored by
the last successful call to that endpoint since the last reset (`none` when
there is none); a successful call replaces the endpoint's stored id with the
reply's id; and `reset()` empties the whole map, so subsequent calls behave as
first-time calls. -/
theorem c5_session_map (ops : List MOp) (st : Messenger) (url : String)
    (nc : Bool) (reply : ReplyEvent) :
    sentContextId st url true = none ∧
    sentContextId (mRun ops) url false = lastSessionId ops url ∧
    (replySuccess reply = true →
      mapGet ((mStep st (.talk url nc reply)).contextIds) url =
        replyContextId reply) ∧
    (mStep st .reset).contextIds = [] ∧
    sentContextId (mStep st .reset) url false = none := by
  refine ⟨rfl, ?_, ?_, rfl, rfl⟩
  · show mapGet (mRun ops).contextIds url = lastSessionId ops url
    rw [mRun, lastSessionId, mapGet_foldl_mStep]
    rfl
  · intro hs
    have h := mapGet_foldl_mStep [.talk url nc reply] st url
    simp only [List.foldl_cons, List.foldl_nil] at h
    rw [h]
    simp [hs]

/-- C5 witness: one successful call on a fresh messenger stores the reply's
context id for its endpoint. -/
theorem c5_session_map_witness :
    mapGet ((mStep ⟨[]⟩
      (.talk "http://agent" false (.message (some "ctx-1") []))).contextIds)
      "http://agent" = some "ctx-1" := by
  exact (c5_session_map [] ⟨[]⟩ "http://agent" false
    (.message (some "ctx-1") [])).2.2.1 rfl

/-! ## C6: messenger failure policy -/

/-- C6: `talk_to_agent` raises (carrying the raw outputs) iff the reply is a
task/update pair whose terminal status differs from `completed`; a plain
message reply carries no status and always succeeds; and on a raise the
session map is left unchanged (the stored id is only written after the status
check passes). -/
theorem c6_failure_policy (st : Messenger) (url : String) (nc : Bool)
    (reply : ReplyEvent) :
    ((∃ o, (talkToAgent st url nc reply).2 = .error o) ↔
      ∃ ctx s sm arts, reply = .taskUpdate ctx s sm arts ∧ s ≠ "completed") ∧
    (∀ o, (talkToAgent st url nc reply).2 = .error o →
      o = sendMessage reply ∧ (talkToAgent st url nc reply).1 = st) ∧
    (∀ ctx parts, reply = .message ctx parts →
      (talkToAgent st url nc reply).2 = .ok (sendMessage reply)) := by
  by_cases hs : replySuccess reply
  · have hcheck : ((sendMessage reply).status.getD "completed" == "completed") =
        true := by rw [sendMessage_status_check]; exact hs
    have hred : talkToAgent st url nc reply =
        (⟨mapPut st.contextIds url (sendMessage reply).context_id⟩,
          .ok (sendMessage reply)) := by
      unfold talkToAgent
      simp [hcheck]
    refine ⟨?_, ?_, ?_⟩
    · rw [hred]
      constructor
      · rintro ⟨o, ho⟩
        simp at ho
      · rintro ⟨ctx, s, sm, arts, rfl, hne⟩
        exact absurd (by simpa [replySuccess] using hs) hne
    · intro o ho
      rw [hred] at ho
      simp at ho
    · intro ctx parts hmsg
      rw [hred]
  · have hcheck : ((sendMessage reply).status.getD "completed" == "completed") =
        false := by
      rw [sendMessage_status_check]
      simpa using hs
    have hred : talkToAgent st url nc reply = (st, .error (sendMessage reply)) := by
      unfold talkToAgent
      simp [hcheck]
    obtain ⟨ctx, s, sm, arts, rfl⟩ :
        ∃ ctx s sm arts, reply = .taskUpdate ctx s sm arts := by
      cases reply with
      | message ctx parts => simp [replySuccess] at hs
      | taskUpdate ctx s sm arts => exact ⟨ctx, s, sm, arts, rfl⟩
      | noEvent => simp [replySuccess] at hs
    have hne : s ≠ "completed" := by
      intro h
      subst h
      simp [replySuccess] at hs
    refine ⟨?_, ?_, ?_⟩
    · rw [hred]
      exact ⟨fun _ => ⟨ctx, s, sm, arts, rfl, hne⟩, fun _ => ⟨_, rfl⟩⟩
    · intro o ho
      rw [hred] at ho
      simp only [Except.error.injEq] at ho
      rw [hred, ← ho]
      exact ⟨rfl, rfl⟩
    · intro c parts hmsg
      exact absurd hmsg (by simp)

/-- C6 witness: a task reply with terminal status `failed` raises with the
raw outputs and leaves a fresh messenger's (empty) session map unchanged. -/
theorem c6_failure_policy_witness :
    (talkToAgent ⟨[]⟩ "http://agent" true
        (.taskUpdate (some "c") "failed" none [])).2 =
      .error (sendMessage (.taskUpdate (some "c") "failed" none [])) ∧
    (talkToAgent ⟨[]⟩ "http://agent" true
        (.taskUpdate (some "c") "failed" none [])).1 = ⟨[]⟩ := by
  have h := (c6_failure_policy ⟨[]⟩ "http://agent" true
    (.taskUpdate (some "c") "failed" none [])).2.1
    (sendMessage (.taskUpdate (some "c") "failed" none [])) rfl
  exact ⟨rfl, h.2⟩

/-! ## C10 helper lemmas: the scoring loop's dict discipline -/

theorem jAtomBeq_refl (k : JVal) (hk : isHashable k = true) :
    jAtomBeq k k = true := by
  cases k <;> simp_all [jAtomBeq, isHashable]

theorem keys_dictSet (m : List (JVal × TickerResult)) (k : JVal)
    (v : TickerResult) :
    (dictSet m k v).map Prod.fst =
      if m.any (fun p => jAtomBeq p.1 k) then m.map Prod.fst
      else m.map Prod.fst ++ [k] := by
  rw [dictSet]
  by_cases h : m.any (fun p => jAtomBeq p.1 k)
  · rw [if_pos h, if_pos h, List.map_map]
    apply List.map_congr_left
    intro p hp
    by_cases hpk : jAtomBeq p.1 k <;> simp [hpk]
  · rw [if_neg h, if_neg h]
    simp

theorem lookupKey_dictSet_self (m : List (JVal × TickerResult)) (k : JVal)
    (v : TickerResult) (hk : isHashable k = true) :
    lookupKey (dictSet m k v) k = some v := by
  rw [dictSet]
  by_cases h : m.any (fun p => jAtomBeq p.1 k)
  · rw [if_pos h, lookupKey, List.find?_map]
    have hpred : ((fun p : JVal × TickerResult => jAtomBeq p.1 k) ∘
        fun p => if jAtomBeq p.1 k then (p.1, v) else p) =
        fun p : JVal × TickerResult => jAtomBeq p.1 k := by
      funext p
      by_cases hp : jAtomBeq p.1 k <;> simp [hp]
    rw [hpred]
    cases hq : m.find? (fun p => jAtomBeq p.1 k) with
    | none =>
      rw [List.find?_eq_none] at hq
      rcases List.any_eq_true.mp h with ⟨x, hx, hpx⟩
      exact absurd hpx (by simpa using hq x hx)
    | some q =>
      have hq2 := List.find?_some hq
      simp [hq2]
  · rw [if_neg h, lookupKey, List.find?_append]
    have hnone : m.find? (fun p => jAtomBeq p.1 k) = none := by
      rw [List.find?_eq_none]
      intro x hx hpx
      exact h (List.any_eq_true.mpr ⟨x, hx, hpx⟩)
    rw [hnone]
    simp [List.find?, jAtomBeq_refl k hk]

theorem scoreStep_skip (f : JVal → List SearchResult) (t : ℚ)
    (acc : List (JVal × TickerResult) × List JVal)
    (fields : List (String × JVal))
    (h : pyTruthy (pyGet fields "ticker") = false) :
    scoreStep f t acc (.obj fields) = .ok acc := by
  simp [scoreStep, h]

theorem scoreStep_set (f : JVal → List SearchResult) (t : ℚ)
    (acc : List (JVal × TickerResult) × List JVal)
    (fields : List (String × JVal))
    (ht : pyTruthy (pyGet fields "ticker") = true)
    (hh : isHashable (pyGet fields "ticker") = true) :
    scoreStep f t acc (.obj fields) =
      .ok (dictSet acc.1 (pyGet fields "ticker") (entryOf f t fields),
        acc.2 ++ [pyGet fields "ticker"]) := by
  simp [scoreStep, ht, hh]

theorem scoreFold_append (f : JVal → List SearchResult) (t : ℚ)
    (l1 l2 : List JVal) :
    ∀ acc, scoreFold f t acc (l1 ++ l2) =
      match scoreFold f t acc l1 with
      | .ok acc2 => scoreFold f t acc2 l2
      | .error e => .error e := by
  induction l1 with
  | nil => intro acc; rfl
  | cons d ds ih =>
    intro acc
    rw [List.cons_append]
    cases hstep : scoreStep f t acc d with
    | ok acc2 =>
      simp only [scoreFold, hstep]
      exact ih acc2
    | error e =>
      simp only [scoreFold, hstep]

theorem dedupKeysAux_congr (l : List JVal) :
    ∀ s1 s2 : List JVal,
      (∀ x, s1.any (fun s => jAtomBeq s x) = s2.any (fun s => jAtomBeq s x)) →
      dedupKeysAux s1 l = dedupKeysAux s2 l := by
  induction l with
  | nil => intro s1 s2 h; rfl
  | cons k ks ih =>
    intro s1 s2 h
    simp only [dedupKeysAux]
    rw [h k]
    by_cases hk : s2.any (fun s => jAtomBeq s k)
    · rw [if_pos hk, if_pos hk]
      exact ih s1 s2 h
    · rw [if_neg hk, if_neg hk]
      exact congrArg (k :: ·)
        (ih (k :: s1) (k :: s2) (fun x => by simp [List.any_cons, h x]))

theorem truthyTickers_cons_obj (fields : List (String × JVal)) (ds : List JVal) :
    truthyTickers (.obj fields :: ds) =
      if pyTruthy (pyGet fields "ticker") then
        pyGet fields "ticker" :: truthyTickers ds
      else truthyTickers ds := by
  by_cases ht : pyTruthy (pyGet fields "ticker") <;>
    simp [truthyTickers, List.filterMap_cons, ht]

theorem scoreFold_keys (f : JVal → List SearchResult) (t : ℚ) (ds : List JVal) :
    ∀ (acc res : List (JVal × TickerResult) × List JVal),
      scoreFold f t acc ds = .ok res →
      res.1.map Prod.fst =
        acc.1.map Prod.fst ++
          dedupKeysAux (acc.1.map Prod.fst) (truthyTickers ds) := by
  induction ds with
  | nil =>
    intro acc res h
    simp only [scoreFold, Except.ok.injEq] at h
    subst h
    simp [truthyTickers, dedupKeysAux]
  | cons d ds ih =>
    intro acc res h
    cases d with
    | obj fields =>
      by_cases ht : pyTruthy (pyGet fields "ticker")
      · by_cases hh : isHashable (pyGet fields "ticker")
        · rw [show ((JVal.obj fields :: ds) : List JVal) = [JVal.obj fields] ++ ds
            from rfl] at h
          rw [scoreFold_append] at h
          have hstep : scoreFold f t acc [JVal.obj fields] =
              .ok (dictSet acc.1 (pyGet fields "ticker") (entryOf f t fields),
                acc.2 ++ [pyGet fields "ticker"]) := by
            simp only [scoreFold, scoreStep_set f t acc fields ht hh]
          rw [hstep] at h
          have ihh := ih _ res h
          rw [ihh]
          rw [truthyTickers_cons_obj, if_pos ht]
          simp only [keys_dictSet]
          have hanyeq : (acc.1.map Prod.fst).any
              (fun s => jAtomBeq s (pyGet fields "ticker")) =
              acc.1.any (fun p => jAtomBeq p.1 (pyGet fields "ticker")) := by
            induction acc.1 with
            | nil => rfl
            | cons p ps ihp => simp only [List.map_cons, List.any_cons, ihp]
          by_cases hmem : acc.1.any (fun p => jAtomBeq p.1 (pyGet fields "ticker"))
          · rw [if_pos hmem]
            rw [dedupKeysAux]
            rw [hanyeq, if_pos hmem]
          · rw [if_neg hmem]
            rw [dedupKeysAux]
            rw [hanyeq, if_neg hmem]
            rw [List.append_assoc, List.singleton_append]
            congr 1
            congr 1
            apply dedupKeysAux_congr
            intro x
            simp [List.any_append, List.any_cons, Bool.or_comm]
        · exact absurd h (by simp [scoreFold, scoreStep, ht, hh])
      · have hstep := scoreStep_skip f t acc fields (by simpa using ht)
        simp only [scoreFold, hstep] at h
        have ihh := ih _ res h
        rw [ihh, truthyTickers_cons_obj, if_neg ht]
    | null => exact absurd h (by simp [scoreFold, scoreStep])
    | bool b => exact absurd h (by simp [scoreFold, scoreStep])
    | num q => exact absurd h (by simp [scoreFold, scoreStep])
    | str s => exact absurd h (by simp [scoreFold, scoreStep])
    | arr xs => exact absurd h (by simp [scoreFold, scoreStep])

/-! ## C10: skipped decisions, overwritten duplicates, distinct denominator -/

/-- C10: a decision whose `ticker` field is missing or falsy is skipped
entirely (deleting it from the decision list changes neither the
`ticker_results` mapping nor the sequence of verification searches); a later
decision with the same truthy ticker overwrites the earlier entry in the
mapping (whose lookup then yields the later decision's row); and the mapping's
key sequence — whose length is the pass-rate denominator — is the
first-occurrence deduplication of the truthy tickers, so it counts distinct
tickers rather than decisions. -/
theorem c10_decision_loop (f : JVal → List SearchResult) (t : ℚ)
    (ds1 ds2 ds : List JVal) (gFields fields : List (String × JVal))
    (acc : List (JVal × TickerResult) × List JVal) :
    (pyTruthy (pyGet gFields "ticker") = false →
      scoreFold f t acc (ds1 ++ .obj gFields :: ds2) =
        scoreFold f t acc (ds1 ++ ds2)) ∧
    (scoreDecisions f t ds = .ok acc →
      pyTruthy (pyGet fields "ticker") = true →
      isHashable (pyGet fields "ticker") = true →
      scoreDecisions f t (ds ++ [.obj fields]) =
        .ok (dictSet acc.1 (pyGet fields "ticker") (entryOf f t fields),
          acc.2 ++ [pyGet fields "ticker"]) ∧
      lookupKey (dictSet acc.1 (pyGet fields "ticker") (entryOf f t fields))
        (pyGet fields "ticker") = some (entryOf f t fields)) ∧
    (scoreDecisions f t ds = .ok acc →
      acc.1.map Prod.fst = dedupKeys (truthyTickers ds)) := by
  refine ⟨?_, ?_, ?_⟩
  · intro hg
    rw [scoreFold_append, scoreFold_append]
    cases hfold : scoreFold f t acc ds1 with
    | error e => rfl
    | ok acc2 =>
      show scoreFold f t acc2 (.obj gFields :: ds2) = scoreFold f t acc2 ds2
      simp only [scoreFold, scoreStep_skip f t acc2 gFields hg]
  · intro hds ht hh
    refine ⟨?_, lookupKey_dictSet_self _ _ _ hh⟩
    rw [scoreDecisions, scoreFold_append]
    rw [scoreDecisions] at hds
    rw [hds]
    simp only [scoreFold, scoreStep_set f t acc fields ht hh]
  · intro hds
    rw [scoreDecisions] at hds
    have h := scoreFold_keys f t ds ([], []) acc hds
    simpa [dedupKeys] using h

/-- C10 witness: with decisions for ticker `A` (verdict `unknown`), an
empty-ticker decision, and a second decision for ticker `A` (verdict
`increase`): the empty-ticker decision is a no-op, the second `A` decision
overwrites the first, and the key list is the single distinct ticker `A`. -/
theorem c10_decision_loop_witness :
    scoreFold (fun _ => []) (3/10) ([], [])
        ([JVal.obj [("ticker", .str "A"), ("verdict", .str "unknown")]] ++
          JVal.obj [("ticker", .str "")] ::
            [JVal.obj [("ticker", .str "A"), ("verdict", .str "increase")]]) =
      scoreFold (fun _ => []) (3/10) ([], [])
        ([JVal.obj [("ticker", .str "A"), ("verdict", .str "unknown")]] ++
          [JVal.obj [("ticker", .str "A"), ("verdict", .str "increase")]]) ∧
    scoreDecisions (fun _ => []) (3/10)
        ([JVal.obj [("ticker", .str "A"), ("verdict", .str "unknown")]] ++
          [JVal.obj [("ticker", .str "A"), ("verdict", .str "increase")]]) =
      .ok (dictSet
          [(JVal.str "A",
            entryOf (fun _ => []) (3/10)
              [("ticker", .str "A"), ("verdict", .str "unknown")])]
          (JVal.str "A")
          (entryOf (fun _ => []) (3/10)
            [("ticker", .str "A"), ("verdict", .str "increase")]),
        [JVal.str "A"] ++ [JVal.str "A"]) ∧
    lookupKey (dictSet
        [(JVal.str "A",
          entryOf (fun _ => []) (3/10)
            [("ticker", .str "A"), ("verdict", .str "unknown")])]
        (JVal.str "A")
        (entryOf (fun _ => []) (3/10)
          [("ticker", .str "A"), ("verdict", .str "increase")]))
      (JVal.str "A") =
      some (entryOf (fun _ => []) (3/10)
        [("ticker", .str "A"), ("verdict", .str "increase")]) ∧
    [(JVal.str "A",
      entryOf (fun _ => []) (3/10)
        [("ticker", .str "A"), ("verdict", .str "unknown")])].map Prod.fst =
      dedupKeys (truthyTickers
        [JVal.obj [("ticker", .str "A"), ("verdict", .str "unknown")]]) := by
  have hskip := (c10_decision_loop (fun _ => []) (3/10)
    [JVal.obj [("ticker", .str "A"), ("verdict", .str "unknown")]]
    [JVal.obj [("ticker", .str "A"), ("verdict", .str "increase")]]
    [] [("ticker", .str "")] [] (([], []))).1 (by decide)
  have hover := (c10_decision_loop (fun _ => []) (3/10) [] []
    [JVal.obj [("ticker", .str "A"), ("verdict", .str "unknown")]]
    [] [("ticker", .str "A"), ("verdict", .str "increase")]
    ([(JVal.str "A",
      entryOf (fun _ => []) (3/10)
        [("ticker", .str "A"), ("verdict", .str "unknown")])],
      [JVal.str "A"])).2.1 rfl (by decide) (by decide)
  have hkeys := (c10_decision_loop (fun _ => []) (3/10) [] []
    [JVal.obj [("ticker", .str "A"), ("verdict", .str "unknown")]]
    [] []
    ([(JVal.str "A",
      entryOf (fun _ => []) (3/10)
        [("ticker", .str "A"), ("verdict", .str "unknown")])],
      [JVal.str "A"])).2.2 rfl
  exact ⟨hskip, hover.1, hover.2, hkeys⟩
